import Mathlib

/-!
A shallow embedding of `src/scientist.go` (package `scientist` of
hulilabs/go-scientist) and proofs about it.

Modelling conventions:
* Go `error` values are modelled by their message (`GoErr`); `nil` errors are
  `Option.none`.
* Go `interface{}` values produced by behaviors are modelled by the inductive
  `GoVal`.
* A behavior (`behaviorFunc`, a zero-argument closure) is modelled by the
  outcome of invoking it once: either a normal return of a value and an error,
  or a panic carrying a payload (`BehaviorOutcome`).
* A Go map is modelled by an association list whose order is the iteration
  order that `range` happens to produce for one particular run; the Go
  specification leaves that order unspecified, so two runs over the same map
  correspond to two permuted association lists.  Real Go maps have unique
  keys, which appears as a `Nodup` hypothesis where it matters.
* Go slices of observation pointers (`[]*Observation`) preallocated by `make`
  and filled by index assignment are modelled by `List (Option Observation)`
  initialised to `none`s; `sliceSet` models index assignment and returns
  `none` on an out-of-range index, and `makeSliceObs` returns `none` on a
  negative length: an overall result of `none` models a Go runtime panic
  escaping `Run`.
* Wall-clock fields (`Started`, `Runtime`) are not modelled; no claim below
  depends on concrete times.
* `Observation.Experiment` and `Result.Experiment` back-pointers are dropped;
  the experiment is passed explicitly instead.
-/

namespace Scientist

/-- Model of a Go `error` value, identified by its message text. -/
structure GoErr where
  msg : String
deriving DecidableEq, Repr

/-- Model of the Go `interface{}` values flowing through the experiment:
behavior results, comparator inputs and panic payloads. -/
inductive GoVal where
  | nil
  | bool (b : Bool)
  | int (n : Int)
  | str (s : String)
  | err (e : GoErr)
deriving DecidableEq, Repr

/-- Generic formatting of a value, as Go `fmt` with verb `%v` would print the
payloads we model. -/
def formatV : GoVal → String
  | .nil => "<nil>"
  | .bool true => "true"
  | .bool false => "false"
  | .int n => toString n
  | .str s => s
  | .err e => e.msg

/-- The outcome of invoking a `behaviorFunc` once: a normal return of
`(value, err)`, or a panic carrying a payload. -/
inductive BehaviorOutcome where
  | ret (value : GoVal) (err : Option GoErr)
  | panics (payload : GoVal)
deriving DecidableEq, Repr

/-- `Observation` from scientist.go, without the timing fields and the
experiment back-pointer (see the module docstring). -/
structure Observation where
  Name : String
  Value : GoVal
  Err : Option GoErr
deriving DecidableEq, Repr

/-- `ResultError` from scientist.go. -/
structure ResultError where
  Operation : String
  Experiment : String
  Err : GoErr
deriving DecidableEq, Repr

/-- `Result` from scientist.go, without the experiment back-pointer.
`Observations` and `Candidates` are slices of observation pointers in Go,
preallocated with `make` and filled by index, hence lists of
`Option Observation` here. -/
structure Result where
  Control : Observation
  Observations : List (Option Observation)
  Candidates : List (Option Observation)
  Ignored : List Observation
  Mismatched : List Observation
  Errors : List ResultError
deriving DecidableEq, Repr

/-- Modelled from the spec: the `Experiment` type is defined outside
`src/` (only its use sites appear in scientist.go), so its fields are
reconstructed from spec section 6 and from how scientist.go uses them:
a name, a behavior registry (an association list standing for the Go map,
in this run's iteration order), a comparator, an ordered sequence of ignore
rules, a cleaner, and the pre-trial hook and publisher hooks.  The zero-argument
hooks `beforeRun` and the behaviors are modelled by the outcome they produce
during the one trial under consideration. -/
structure Experiment where
  Name : String
  behaviors : List (String × BehaviorOutcome)
  comparator : GoVal → GoVal → Bool × Option GoErr
  ignores : List (GoVal → GoVal → Bool × Option GoErr)
  cleaner : GoVal → GoVal × Option GoErr
  beforeRun : Option GoErr
  publisher : Result → Option GoErr

/-- Modelled from the spec: `e.resultErr(op, err)` (defined outside `src/`)
"tags an internal failure with the operation during which it occurred ... and
the experiment name, wrapping an underlying error" (spec section 3). -/
def Experiment.resultErr (e : Experiment) (op : String) (err : GoErr) : ResultError :=
  { Operation := op, Experiment := e.Name, Err := err }

/-- Go map lookup `e.behaviors[k]`: the first entry with the given key
(keys are unique in a real map); `none` models the zero value `nil`. -/
def lookupB (bs : List (String × BehaviorOutcome)) (k : String) : Option BehaviorOutcome :=
  (bs.find? (fun p => p.1 == k)).map (fun p => p.2)

/-- `behaviorNotFound` from scientist.go (the `%q` verb is modelled by plain
double quotes). -/
def behaviorNotFound (e : Experiment) (name : String) : GoErr :=
  { msg := "Behavior \"" ++ name ++ "\" not found for experiment \"" ++ e.Name ++ "\"" }

/-- `runBehavior` from scientist.go: invoke the behavior under the fault
barrier.  On a panic the deferred `recover` sets the value to `nil` and
converts the payload: a `string` payload via `errors.New`, an `error` payload
used directly, anything else via `fmt.Errorf("%v", t)`. -/
def runBehavior : BehaviorOutcome → GoVal × Option GoErr
  | .ret v err => (v, err)
  | .panics payload =>
      (GoVal.nil,
        some (match payload with
          | .str s => { msg := s }
          | .err er => er
          | t => { msg := formatV t }))

/-- `observe` from scientist.go (timing fields omitted).  `b` is the
behavior argument, `none` standing for a `nil` `behaviorFunc`; a `nil`
argument triggers the in-function map lookup, and a behavior that is still
`nil` yields the behavior-not-found observation with an absent value. -/
def observe (e : Experiment) (name : String) (b : Option BehaviorOutcome) : Observation :=
  match (match b with
         | none => lookupB e.behaviors name
         | some x => some x) with
  | none => { Name := name, Value := GoVal.nil, Err := some (behaviorNotFound e name) }
  | some bb =>
      let ve := runBehavior bb
      { Name := name, Value := ve.1, Err := ve.2 }

/-- `mismatching` from scientist.go: negate the comparator's match flag and
pass its error through. -/
def mismatching (e : Experiment) (control candidate : Observation) : Bool × Option GoErr :=
  let m := e.comparator control.Value candidate.Value
  (!m.1, m.2)

/-- The loop body of `ignoring` from scientist.go, over an explicit list of
rules: a rule error returns `(false, err)` immediately; a rule answering
`true` with no error returns `(true, nil)`; otherwise continue. -/
def ignoringGo (rules : List (GoVal → GoVal → Bool × Option GoErr))
    (cv xv : GoVal) : Bool × Option GoErr :=
  match rules with
  | [] => (false, none)
  | i :: rest =>
      match i cv xv with
      | (_, some err) => (false, some err)
      | (true, none) => (true, none)
      | (false, none) => ignoringGo rest cv xv

/-- `ignoring` from scientist.go. -/
def ignoring (e : Experiment) (control candidate : Observation) : Bool × Option GoErr :=
  ignoringGo e.ignores control.Value candidate.Value

/-- Index assignment `xs[i] = v` into a Go slice; an out-of-range index is a
runtime panic, modelled by `none`. -/
def sliceSet {α : Type} (xs : List α) (i : Nat) (v : α) : Option (List α) :=
  if i < xs.length then some (xs.set i v) else none

/-- `make([]*Observation, n)`: a slice of `n` nil pointers; a negative
length is a runtime panic, modelled by `none`. -/
def makeSliceObs (n : Int) : Option (List (Option Observation)) :=
  if n < 0 then none else some (List.replicate n.toNat none)

/-- The mutable state of `Run`'s candidate loop: the two preallocated slices,
the two classification accumulators, the error accumulator, and the index
counter `i`. -/
structure LoopState where
  Candidates : List (Option Observation)
  Observations : List (Option Observation)
  Ignored : List Observation
  Mismatched : List Observation
  Errors : List ResultError
  i : Nat
deriving Repr

/-- The `for bname, b := range e.behaviors` loop of `Run` from scientist.go,
iterating the entries in this run's order.  The entry whose key equals the
requested control name is skipped; every other behavior is observed, written
at `Candidates[i]` and `Observations[i+1]`, compared (a comparator error
forces `mismatched = true` and records a `compare` ResultError), and, when
mismatched, routed through the ignore rules (an ignore error forces
`ignored = false` and records an `ignore` ResultError) into `Ignored` or
`Mismatched`.  `none` models a runtime panic escaping the loop. -/
def runLoop (e : Experiment) (name : String) (control : Observation) :
    List (String × BehaviorOutcome) → LoopState → Option LoopState
  | [], st => some st
  | (bname, b) :: rest, st =>
      if bname = name then runLoop e name control rest st
      else
        let c := observe e bname (some b)
        match sliceSet st.Candidates st.i (some c) with
        | none => none
        | some cands =>
            match sliceSet st.Observations (st.i + 1) (some c) with
            | none => none
            | some obs =>
                let m := mismatching e control c
                let mis := if m.2.isSome then true else m.1
                let errs1 :=
                  match m.2 with
                  | some err => st.Errors ++ [e.resultErr "compare" err]
                  | none => st.Errors
                if !mis then
                  runLoop e name control rest
                    { Candidates := cands, Observations := obs,
                      Ignored := st.Ignored, Mismatched := st.Mismatched,
                      Errors := errs1, i := st.i + 1 }
                else
                  let g := ignoring e control c
                  let ign := if g.2.isSome then false else g.1
                  let errs2 :=
                    match g.2 with
                    | some err => errs1 ++ [e.resultErr "ignore" err]
                    | none => errs1
                  if ign then
                    runLoop e name control rest
                      { Candidates := cands, Observations := obs,
                        Ignored := st.Ignored ++ [c], Mismatched := st.Mismatched,
                        Errors := errs2, i := st.i + 1 }
                  else
                    runLoop e name control rest
                      { Candidates := cands, Observations := obs,
                        Ignored := st.Ignored, Mismatched := st.Mismatched ++ [c],
                        Errors := errs2, i := st.i + 1 }

/-- One run of the experiment, with the observable interactions with the
pluggable hooks: the `Result` returned to the caller, the `Result` value
handed to the publisher (Go passes `r` by value, so later appends to
`r.Errors` are not visible to the publisher), and the batch of errors handed
to the error reporter (`none` when the reporter is not called). -/
structure RunTrace where
  result : Result
  published : Result
  reported : Option (List ResultError)
deriving Repr

/-- The `if err := e.beforeRun(); err != nil { ... }` step of `Run`: the
errors collected before the loop starts. -/
def beforeRunErrors (e : Experiment) : List ResultError :=
  match e.beforeRun with
  | some err => [e.resultErr "before_run" err]
  | none => []

/-- The `if err := e.publisher(r); err != nil { ... }` step of `Run`: the
final error list, extending the collected errors by a `publish` ResultError
when the publisher fails on the assembled result. -/
def publishErrors (e : Experiment) (r : Result) : List ResultError :=
  match e.publisher r with
  | some err => r.Errors ++ [e.resultErr "publish" err]
  | none => r.Errors

/-- `Run` from scientist.go, returning the full trace.  `none` models a Go
runtime panic escaping `Run`. -/
def RunT (e : Experiment) (name : String) : Option RunTrace :=
  let errs0 : List ResultError := beforeRunErrors e
  let numCandidates : Int := (e.behaviors.length : Int) - 1
  let control := observe e name (lookupB e.behaviors name)
  match makeSliceObs numCandidates with
  | none => none
  | some cands0 =>
      match makeSliceObs (numCandidates + 1) with
      | none => none
      | some obs0 =>
          match sliceSet obs0 0 (some control) with
          | none => none
          | some obs1 =>
              match runLoop e name control e.behaviors
                  { Candidates := cands0, Observations := obs1,
                    Ignored := [], Mismatched := [], Errors := errs0, i := 0 } with
              | none => none
              | some st =>
                  let rPub : Result :=
                    { Control := control, Observations := st.Observations,
                      Candidates := st.Candidates, Ignored := st.Ignored,
                      Mismatched := st.Mismatched, Errors := st.Errors }
                  let errsF := publishErrors e rPub
                  let rFinal : Result := { rPub with Errors := errsF }
                  let reported := if errsF.length > 0 then some errsF else none
                  some { result := rFinal, published := rPub, reported := reported }

/-- `Run` from scientist.go as seen by the caller: just the returned
`Result` (`none` models a runtime panic). -/
def Run (e : Experiment) (name : String) : Option Result :=
  (RunT e name).map (fun t => t.result)

/-- `Observation.CleanedValue` from scientist.go (the experiment passed
explicitly in place of the back-pointer). -/
def Observation.CleanedValue (e : Experiment) (o : Observation) : GoVal × Option GoErr :=
  e.cleaner o.Value

/-! ### Derived descriptions of what one iteration of the loop does

The following definitions are read off the loop body of `Run`; the
characterisation theorem below proves that `RunT` is exactly described by
them, and the claim theorems are then proved from that characterisation. -/

/-- The behavior entries that `Run`'s loop does not skip: every entry whose
key differs from the requested control name, in iteration order. -/
def candidateEntries (bs : List (String × BehaviorOutcome)) (name : String) :
    List (String × BehaviorOutcome) :=
  bs.filter (fun p => p.1 != name)

/-- The observation the loop makes for one entry. -/
def observeEntry (e : Experiment) (p : String × BehaviorOutcome) : Observation :=
  observe e p.1 (some p.2)

/-- The candidate observations produced for the unskipped entries of a list,
in iteration order. -/
def newCands (e : Experiment) (name : String)
    (bs : List (String × BehaviorOutcome)) : List Observation :=
  (candidateEntries bs name).map (observeEntry e)

/-- The `mismatched` flag after `Run`'s error fix-up: a comparator error
forces `true`, otherwise the negated match flag stands. -/
def isMismatched (e : Experiment) (control c : Observation) : Bool :=
  let m := mismatching e control c
  if m.2.isSome then true else m.1

/-- The `ignored` flag after `Run`'s error fix-up: an ignore-rule error
forces `false`, otherwise the rules' verdict stands. -/
def isIgnored (e : Experiment) (control c : Observation) : Bool :=
  let g := ignoring e control c
  if g.2.isSome then false else g.1

/-- Where one candidate ends up: unclassified (matched), in `Ignored`, or in
`Mismatched`. -/
inductive Classification where
  | matched
  | ignored
  | mismatched
deriving DecidableEq, Repr

/-- The classification `Run`'s loop gives one candidate. -/
def classify (e : Experiment) (control c : Observation) : Classification :=
  if isMismatched e control c then
    if isIgnored e control c then Classification.ignored
    else Classification.mismatched
  else Classification.matched

/-- The ResultErrors `Run`'s loop appends for one candidate: a `compare`
error whenever the comparator errs, then an `ignore` error whenever the
candidate counts as mismatched and an ignore rule errs. -/
def classErrs (e : Experiment) (control c : Observation) : List ResultError :=
  (match (mismatching e control c).2 with
   | some err => [e.resultErr "compare" err]
   | none => []) ++
  (if isMismatched e control c then
     match (ignoring e control c).2 with
     | some err => [e.resultErr "ignore" err]
     | none => []
   else [])

/-- The control observation of a run, as computed by `Run`. -/
def specControl (e : Experiment) (name : String) : Observation :=
  observe e name (lookupB e.behaviors name)

/-- The candidate observations of a run, in this run's iteration order. -/
def specCands (e : Experiment) (name : String) : List Observation :=
  newCands e name e.behaviors

/-- Slots of the preallocated slices left `nil`.  For a real Go map (unique
keys) with the control name registered this is `0`. -/
def specLeftover (e : Experiment) (name : String) : Nat :=
  (e.behaviors.length - 1) - (specCands e name).length

/-- The fully assembled `Result` as it is handed to the publisher. -/
def specPrePublish (e : Experiment) (name : String) : Result :=
  { Control := specControl e name
    Observations := (specControl e name :: specCands e name).map some
        ++ List.replicate (specLeftover e name) none
    Candidates := (specCands e name).map some
        ++ List.replicate (specLeftover e name) none
    Ignored := (specCands e name).filter
        (fun c => classify e (specControl e name) c == Classification.ignored)
    Mismatched := (specCands e name).filter
        (fun c => classify e (specControl e name) c == Classification.mismatched)
    Errors := beforeRunErrors e
        ++ (specCands e name).flatMap (classErrs e (specControl e name)) }

/-- The error list of the returned `Result`: the collected errors plus a
`publish` error when the publisher fails on the pre-publish result. -/
def specFinalErrors (e : Experiment) (name : String) : List ResultError :=
  publishErrors e (specPrePublish e name)

/-- The full trace of a completed run. -/
def mkTrace (e : Experiment) (name : String) : RunTrace :=
  { result := { specPrePublish e name with Errors := specFinalErrors e name }
    published := specPrePublish e name
    reported :=
      if (specFinalErrors e name).length > 0 then some (specFinalErrors e name)
      else none }

/-! ### Helper lemmas -/

theorem sliceSet_of_lt {α : Type} (xs : List α) (i : Nat) (v : α)
    (h : i < xs.length) : sliceSet xs i v = some (xs.set i v) := by
  simp [sliceSet, h]

theorem sliceSet_of_ge {α : Type} (xs : List α) (i : Nat) (v : α)
    (h : xs.length ≤ i) : sliceSet xs i v = none := by
  simp [sliceSet]
  omega

/-- Writing at the first free slot of a partially filled slice appends. -/
theorem set_fill {α : Type} (done : List α) (k : Nat) (c : α) :
    (done.map some ++ List.replicate (k + 1) (none : Option α)).set done.length (some c)
      = (done ++ [c]).map some ++ List.replicate k none := by
  induction done with
  | nil => simp [List.replicate_succ]
  | cons d ds ih => simpa using ih

/-- Membership of a real (non-nil) element in a partially filled slice. -/
theorem mem_fill {α : Type} (l : List α) (k : Nat) (c : α) :
    some c ∈ l.map some ++ List.replicate k (none : Option α) ↔ c ∈ l := by
  simp [List.mem_append, List.mem_replicate]

/-! ### Characterisation of the loop -/

/-- The loop state after observing the candidates `done`, with `k` slots of
the preallocated slices still `nil` and the given accumulators. -/
def fillState (control : Observation) (done : List Observation) (k : Nat)
    (ign mis : List Observation) (errs : List ResultError) : LoopState :=
  { Candidates := done.map some ++ List.replicate k none,
    Observations := (control :: done).map some ++ List.replicate k none,
    Ignored := ign, Mismatched := mis, Errors := errs, i := done.length }

/-- One non-skipped iteration of the loop: observe the entry, fill the next
slot of both slices, and update the accumulators according to the entry's
classification. -/
theorem runLoop_cons_step (e : Experiment) (name : String) (control : Observation)
    (bname : String) (b : BehaviorOutcome) (rest : List (String × BehaviorOutcome))
    (done : List Observation) (k : Nat) (ign mis : List Observation)
    (errs : List ResultError) (hb : ¬ bname = name) :
    runLoop e name control ((bname, b) :: rest) (fillState control done (k + 1) ign mis errs)
      = runLoop e name control rest
          (fillState control (done ++ [observeEntry e (bname, b)]) k
            (ign ++ if classify e control (observeEntry e (bname, b)) = Classification.ignored
                    then [observeEntry e (bname, b)] else [])
            (mis ++ if classify e control (observeEntry e (bname, b)) = Classification.mismatched
                    then [observeEntry e (bname, b)] else [])
            (errs ++ classErrs e control (observeEntry e (bname, b)))) := by
  have hc : observeEntry e (bname, b) = observe e bname (some b) := rfl
  rw [hc]
  simp only [runLoop, fillState, if_neg hb]
  rw [sliceSet_of_lt _ _ _ (by simp)]
  rw [set_fill]
  have hobs : ((control :: done).map some
        ++ List.replicate (k + 1) (none : Option Observation)).set
        (done.length + 1) (some (observe e bname (some b)))
      = (control :: (done ++ [observe e bname (some b)])).map some
        ++ List.replicate k none := by
    simp only [List.map_cons, List.cons_append, List.set_cons_succ, set_fill]
  rw [sliceSet_of_lt _ _ _ (by simp), hobs]
  dsimp only
  rcases hm : mismatching e control (observe e bname (some b)) with ⟨mb, merr⟩
  rcases merr with _ | merr
  · rcases mb with _ | _
    · -- comparator: matched, no error
      simp [fillState, classify, classErrs, isMismatched, hm]
    · -- comparator: mismatched, no error
      rcases hg : ignoring e control (observe e bname (some b)) with ⟨gb, gerr⟩
      rcases gerr with _ | gerr
      · rcases gb with _ | _
        · simp [fillState, classify, classErrs, isMismatched, isIgnored, hm, hg]
        · simp [fillState, classify, classErrs, isMismatched, isIgnored, hm, hg]
      · simp [fillState, classify, classErrs, isMismatched, isIgnored, hm, hg]
  · -- comparator error: forced mismatch
    rcases hg : ignoring e control (observe e bname (some b)) with ⟨gb, gerr⟩
    rcases gerr with _ | gerr
    · rcases gb with _ | _
      · simp [fillState, classify, classErrs, isMismatched, isIgnored, hm, hg]
      · simp [fillState, classify, classErrs, isMismatched, isIgnored, hm, hg]
    · simp [fillState, classify, classErrs, isMismatched, isIgnored, hm, hg]

/-- Full characterisation of the loop: starting from a partially filled
state it either fills in exactly the observations of the unskipped entries
(classifying and collecting errors as described by `classify` and
`classErrs`), or hits an out-of-range slice write (a Go panic, `none`) when
the remaining slots cannot hold them. -/
theorem runLoop_char (e : Experiment) (name : String) (control : Observation)
    (rest : List (String × BehaviorOutcome)) :
    ∀ (done : List Observation) (k : Nat) (ign mis : List Observation)
      (errs : List ResultError),
      runLoop e name control rest (fillState control done k ign mis errs)
        = if (candidateEntries rest name).length ≤ k then
            some (fillState control (done ++ newCands e name rest)
                   (k - (newCands e name rest).length)
                   (ign ++ (newCands e name rest).filter
                      (fun c => classify e control c == Classification.ignored))
                   (mis ++ (newCands e name rest).filter
                      (fun c => classify e control c == Classification.mismatched))
                   (errs ++ (newCands e name rest).flatMap (classErrs e control)))
          else none := by
  induction rest with
  | nil =>
      intro done k ign mis errs
      simp [runLoop, candidateEntries, newCands]
  | cons hd rest ih =>
      obtain ⟨bname, b⟩ := hd
      intro done k ign mis errs
      by_cases hb : bname = name
      · have hce : candidateEntries ((bname, b) :: rest) name = candidateEntries rest name := by
          simp [candidateEntries, List.filter_cons, hb]
        have hnc : newCands e name ((bname, b) :: rest) = newCands e name rest := by
          simp [newCands, hce]
        have hskip : runLoop e name control ((bname, b) :: rest)
            (fillState control done k ign mis errs)
            = runLoop e name control rest (fillState control done k ign mis errs) := by
          simp [runLoop, hb]
        rw [hskip, ih done k ign mis errs, hce, hnc]
      · have hce : candidateEntries ((bname, b) :: rest) name
            = (bname, b) :: candidateEntries rest name := by
          simp [candidateEntries, List.filter_cons, hb]
        have hnc : newCands e name ((bname, b) :: rest)
            = observeEntry e (bname, b) :: newCands e name rest := by
          simp [newCands, hce]
        have hlen : (candidateEntries ((bname, b) :: rest) name).length
            = (candidateEntries rest name).length + 1 := by
          rw [hce]; simp
        cases k with
        | zero =>
            have hk0 : ¬ (candidateEntries ((bname, b) :: rest) name).length ≤ 0 := by
              omega
            have hfail : runLoop e name control ((bname, b) :: rest)
                (fillState control done 0 ign mis errs) = none := by
              simp only [runLoop, fillState, if_neg hb]
              rw [sliceSet_of_ge _ _ _ (by simp)]
            rw [hfail, if_neg hk0]
        | succ k' =>
            rw [runLoop_cons_step e name control bname b rest done k' ign mis errs hb]
            rw [ih]
            by_cases hcnd : (candidateEntries rest name).length ≤ k'
            · have hcnd2 : (candidateEntries ((bname, b) :: rest) name).length ≤ k' + 1 := by
                omega
              rw [if_pos hcnd, if_pos hcnd2]
              rcases hcl : classify e control (observeEntry e (bname, b)) with _ | _ | _ <;>
                simp [fillState, hnc, List.filter_cons, List.flatMap_cons, hcl,
                  List.append_assoc, Nat.succ_sub_succ]
            · have hcnd2 : ¬ (candidateEntries ((bname, b) :: rest) name).length ≤ k' + 1 := by
                omega
              rw [if_neg hcnd, if_neg hcnd2]

/-- A registered control name leaves at least one entry out of the
candidate entries. -/
theorem candidateEntries_length_lt (bs : List (String × BehaviorOutcome)) (name : String)
    (h : name ∈ bs.map Prod.fst) :
    (candidateEntries bs name).length < bs.length := by
  induction bs with
  | nil => simp at h
  | cons p rest ih =>
      rw [List.map_cons, List.mem_cons] at h
      by_cases hp : p.1 = name
      · have hce : candidateEntries (p :: rest) name = candidateEntries rest name := by
          simp [candidateEntries, List.filter_cons, hp]
        have hle : (candidateEntries rest name).length ≤ rest.length :=
          List.length_filter_le _ rest
        rw [hce]
        simp only [List.length_cons]
        omega
      · have hmem : name ∈ rest.map Prod.fst := by
          rcases h with h | h
          · exact absurd h.symm hp
          · exact h
        have hce : candidateEntries (p :: rest) name = p :: candidateEntries rest name := by
          simp [candidateEntries, List.filter_cons, hp]
        have := ih hmem
        rw [hce]
        simp only [List.length_cons]
        omega

/-- Characterisation of a completed run: when the requested control name is
registered, `RunT` terminates normally and produces exactly the trace
described by the derived definitions. -/
theorem RunT_run (e : Experiment) (name : String)
    (h : name ∈ e.behaviors.map Prod.fst) :
    RunT e name = some (mkTrace e name) := by
  obtain ⟨m, hm⟩ : ∃ m, e.behaviors.length = m + 1 := by
    cases hb : e.behaviors with
    | nil => rw [hb] at h; simp at h
    | cons x xs => exact ⟨xs.length, by simp [hb]⟩
  have hnum : ((e.behaviors.length : Int) - 1) = (m : Int) := by
    rw [hm]; push_cast; ring
  have h0 : ¬ ((m : Int) < 0) := by omega
  have hmk1 : makeSliceObs ((e.behaviors.length : Int) - 1)
      = some (List.replicate m none) := by
    rw [hnum]
    simp only [makeSliceObs, Int.toNat_natCast]
    rw [if_neg h0]
  have h1 : ¬ ((m : Int) + 1 < 0) := by omega
  have hto : ((m : Int) + 1).toNat = m + 1 := by omega
  have hmk2 : makeSliceObs ((e.behaviors.length : Int) - 1 + 1)
      = some (List.replicate (m + 1) none) := by
    rw [hnum]
    simp only [makeSliceObs]
    rw [if_neg h1, hto]
  have hctrl : observe e name (lookupB e.behaviors name) = specControl e name := rfl
  have hcond : (candidateEntries e.behaviors name).length ≤ m := by
    have := candidateEntries_length_lt e.behaviors name h
    omega
  have hloop := runLoop_char e name (specControl e name) e.behaviors [] m [] []
    (beforeRunErrors e)
  rw [if_pos hcond] at hloop
  simp only [RunT, hctrl, hmk1, hmk2]
  rw [sliceSet_of_lt _ _ _ (by simp)]
  have hset : (List.replicate (m + 1) (none : Option Observation)).set 0
      (some (specControl e name)) = (specControl e name :: ([] : List Observation)).map some
        ++ List.replicate m none := by
    simp [List.replicate_succ]
  rw [hset]
  dsimp only
  have hstate : LoopState.mk (List.replicate m none)
        ((specControl e name :: ([] : List Observation)).map some ++ List.replicate m none)
        [] [] (beforeRunErrors e) 0
      = fillState (specControl e name) [] m [] [] (beforeRunErrors e) := by
    simp [fillState]
  rw [hstate, hloop]
  dsimp only [fillState]
  have hleft : m - (newCands e name e.behaviors).length = specLeftover e name := by
    simp [specLeftover, specCands, hm]
  simp [mkTrace, specPrePublish, specFinalErrors, specCands, hleft]

/-- Conversely, a run that terminates normally must have had the requested
control name registered — otherwise the negative `make` length (empty
registry) or the overflowing slice write (loop skips nothing) panics — and
its trace is the characterised one. -/
theorem RunT_some_inv (e : Experiment) (name : String) (t : RunTrace)
    (h : RunT e name = some t) :
    name ∈ e.behaviors.map Prod.fst ∧ t = mkTrace e name := by
  by_cases hmem : name ∈ e.behaviors.map Prod.fst
  · refine ⟨hmem, ?_⟩
    rw [RunT_run e name hmem] at h
    exact (Option.some_inj.mp h).symm
  · exfalso
    cases hbs : e.behaviors with
    | nil =>
        have h0 : e.behaviors.length = 0 := by rw [hbs]; rfl
        have hneg : ((e.behaviors.length : Int) - 1) < 0 := by
          rw [h0]; norm_num
        have hmk : makeSliceObs ((e.behaviors.length : Int) - 1) = none := by
          simp only [makeSliceObs]
          rw [if_pos hneg]
        simp only [RunT, hmk] at h
        exact Option.noConfusion h
    | cons x xs =>
        have hm : e.behaviors.length = xs.length + 1 := by rw [hbs]; simp
        have hnum : ((e.behaviors.length : Int) - 1) = (xs.length : Int) := by
          rw [hm]; push_cast; ring
        have h0 : ¬ ((xs.length : Int) < 0) := by omega
        have hmk1 : makeSliceObs ((e.behaviors.length : Int) - 1)
            = some (List.replicate xs.length none) := by
          rw [hnum]
          simp only [makeSliceObs, Int.toNat_natCast]
          rw [if_neg h0]
        have h1 : ¬ ((xs.length : Int) + 1 < 0) := by omega
        have hto : ((xs.length : Int) + 1).toNat = xs.length + 1 := by omega
        have hmk2 : makeSliceObs ((e.behaviors.length : Int) - 1 + 1)
            = some (List.replicate (xs.length + 1) none) := by
          rw [hnum]
          simp only [makeSliceObs]
          rw [if_neg h1, hto]
        have hctrl : observe e name (lookupB e.behaviors name) = specControl e name := rfl
        have hfull : candidateEntries e.behaviors name = e.behaviors := by
          apply List.filter_eq_self.mpr
          intro p hp
          have hne : ¬ p.1 = name := by
            intro heq
            exact hmem (List.mem_map.mpr ⟨p, hp, heq⟩)
          simp [hne]
        have hcond : ¬ ((candidateEntries e.behaviors name).length ≤ xs.length) := by
          rw [hfull, hm]; omega
        have hloop := runLoop_char e name (specControl e name) e.behaviors [] xs.length [] []
          (beforeRunErrors e)
        rw [if_neg hcond] at hloop
        simp only [RunT, hctrl, hmk1, hmk2] at h
        rw [sliceSet_of_lt _ _ _ (by simp)] at h
        have hset : (List.replicate (xs.length + 1) (none : Option Observation)).set 0
            (some (specControl e name))
            = (specControl e name :: ([] : List Observation)).map some
              ++ List.replicate xs.length none := by
          simp [List.replicate_succ]
        rw [hset] at h
        dsimp only at h
        have hstate : LoopState.mk (List.replicate xs.length none)
              ((specControl e name :: ([] : List Observation)).map some
                ++ List.replicate xs.length none)
              [] [] (beforeRunErrors e) 0
            = fillState (specControl e name) [] xs.length [] [] (beforeRunErrors e) := by
          simp [fillState]
        rw [hstate, hloop] at h
        exact Option.noConfusion h

/-- The caller-level form of the inversion: a returned `Result` comes from a
registered control name and equals the characterised result. -/
theorem Run_some_inv (e : Experiment) (name : String) (r : Result)
    (h : Run e name = some r) :
    name ∈ e.behaviors.map Prod.fst ∧ r = (mkTrace e name).result := by
  rcases Option.map_eq_some'.mp h with ⟨t, ht, hr⟩
  obtain ⟨hmem, hteq⟩ := RunT_some_inv e name t ht
  refine ⟨hmem, ?_⟩
  rw [← hr, hteq]

/-! ### Small facts about the classification -/

theorem classify_of_cmp_err (e : Experiment) (control c : Observation) (err : GoErr)
    (h : (mismatching e control c).2 = some err) :
    classify e control c = Classification.ignored ∨
      classify e control c = Classification.mismatched := by
  have hm : isMismatched e control c = true := by simp [isMismatched, h]
  by_cases hig : isIgnored e control c = true
  · left; simp [classify, hm, hig]
  · right; simp [classify, hm, hig]

theorem compare_err_mem_classErrs (e : Experiment) (control c : Observation) (err : GoErr)
    (h : (mismatching e control c).2 = some err) :
    e.resultErr "compare" err ∈ classErrs e control c := by
  simp [classErrs, h]

theorem errors_sub_final (e : Experiment) (name : String) (x : ResultError)
    (hx : x ∈ (specPrePublish e name).Errors) :
    x ∈ specFinalErrors e name := by
  unfold specFinalErrors publishErrors
  cases e.publisher (specPrePublish e name) <;> simp [hx]

theorem classErrs_mem_prePublish (e : Experiment) (name : String) (c : Observation)
    (x : ResultError) (hc : c ∈ specCands e name)
    (hx : x ∈ classErrs e (specControl e name) c) :
    x ∈ (specPrePublish e name).Errors := by
  simp only [specPrePublish, List.mem_append, List.mem_flatMap]
  exact Or.inr ⟨c, hc, hx⟩

/-! ### Concrete fixtures used by the witnesses and counterexamples -/

/-- Reflection-style equality comparator with no error. -/
def cmpEq : GoVal → GoVal → Bool × Option GoErr := fun a b => (a == b, none)

/-- Identity cleaner with no error. -/
def noopCleaner : GoVal → GoVal × Option GoErr := fun v => (v, none)

/-- Control returns 5, one candidate returns 5 (matching). -/
def expOk : Experiment :=
  { Name := "exp"
    behaviors := [("control", .ret (.int 5) none), ("new", .ret (.int 5) none)]
    comparator := cmpEq, ignores := [], cleaner := noopCleaner
    beforeRun := none, publisher := fun _ => none }

/-- A placeholder used only as the default of `Option.getD`. -/
def rDefault : Result :=
  { Control := { Name := "", Value := GoVal.nil, Err := none }
    Observations := [], Candidates := [], Ignored := [], Mismatched := [], Errors := [] }

def resOk : Result := (Run expOk "control").getD rDefault

/-- An experiment whose behavior registry is empty. -/
def expNoBehaviors : Experiment := { expOk with behaviors := [] }

/-- An experiment with one behavior, none of them named "control". -/
def expNoControl : Experiment :=
  { expOk with behaviors := [("a", .ret (.int 1) none)] }

/-! ### The claims -/

/-- C1: the claim says `Run` completes and returns a `Result` for every
experiment and every requested control name, including an unregistered
control name and an empty behaviors map.  The code does not: with an empty
map `numCandidates` is `-1` and `make([]*Observation, -1)` panics, and with
a non-empty map lacking the control name the loop skips nothing and the
write `r.Candidates[i] = c` runs out of range and panics.  Both runs are
evaluated here to `none`, the model's image of a runtime panic escaping
`Run`. -/
theorem run_panics_without_registered_control :
    Run expNoBehaviors "control" = none ∧ Run expNoControl "control" = none :=
  ⟨rfl, rfl⟩

/-- C2: for every completed trial, `len(Observations) = len(Candidates) + 1`
and `Observations[0]` is the control observation. -/
theorem result_observations_length_and_head (e : Experiment) (name : String) (r : Result)
    (h : Run e name = some r) :
    r.Observations.length = r.Candidates.length + 1 ∧
      r.Observations.head? = some (some r.Control) := by
  obtain ⟨hmem, hr⟩ := Run_some_inv e name r h
  subst hr
  simp [mkTrace, specPrePublish]

theorem result_observations_length_and_head_witness :
    resOk.Observations.length = resOk.Candidates.length + 1 ∧
      resOk.Observations.head? = some (some resOk.Control) :=
  result_observations_length_and_head expOk "control" resOk rfl

/-- C3: in every completed trial, every candidate observation is in exactly
one of the three states (unclassified, ignored, mismatched); `Ignored` and
`Mismatched` are disjoint and both are subsets of `Candidates`. -/
theorem candidate_classification_partition (e : Experiment) (name : String) (r : Result)
    (h : Run e name = some r) :
    (∀ c, some c ∈ r.Candidates →
        (c ∈ r.Ignored ∧ c ∉ r.Mismatched) ∨
        (c ∈ r.Mismatched ∧ c ∉ r.Ignored) ∨
        (c ∉ r.Ignored ∧ c ∉ r.Mismatched)) ∧
    (∀ c, c ∈ r.Ignored → some c ∈ r.Candidates) ∧
    (∀ c, c ∈ r.Mismatched → some c ∈ r.Candidates) ∧
    (∀ c, ¬ (c ∈ r.Ignored ∧ c ∈ r.Mismatched)) := by
  obtain ⟨hmem, hr⟩ := Run_some_inv e name r h
  subst hr
  have hdisj : ∀ c, ¬ (c ∈ (mkTrace e name).result.Ignored ∧
      c ∈ (mkTrace e name).result.Mismatched) := by
    rintro c ⟨h1, h2⟩
    simp [mkTrace, specPrePublish, List.mem_filter] at h1 h2
    rw [h1.2] at h2
    exact absurd h2.2 (by simp)
  refine ⟨?_, ?_, ?_, hdisj⟩
  · intro c _
    by_cases hig : c ∈ (mkTrace e name).result.Ignored
    · exact Or.inl ⟨hig, fun hm => hdisj c ⟨hig, hm⟩⟩
    · by_cases hmis : c ∈ (mkTrace e name).result.Mismatched
      · exact Or.inr (Or.inl ⟨hmis, hig⟩)
      · exact Or.inr (Or.inr ⟨hig, hmis⟩)
  · intro c h1
    simp [mkTrace, specPrePublish, List.mem_filter] at h1
    simp [mkTrace, specPrePublish, mem_fill, h1.1]
  · intro c h1
    simp [mkTrace, specPrePublish, List.mem_filter] at h1
    simp [mkTrace, specPrePublish, mem_fill, h1.1]

theorem candidate_classification_partition_witness :
    (∀ c, some c ∈ resOk.Candidates →
        (c ∈ resOk.Ignored ∧ c ∉ resOk.Mismatched) ∨
        (c ∈ resOk.Mismatched ∧ c ∉ resOk.Ignored) ∨
        (c ∉ resOk.Ignored ∧ c ∉ resOk.Mismatched)) ∧
    (∀ c, c ∈ resOk.Ignored → some c ∈ resOk.Candidates) ∧
    (∀ c, c ∈ resOk.Mismatched → some c ∈ resOk.Candidates) ∧
    (∀ c, ¬ (c ∈ resOk.Ignored ∧ c ∈ resOk.Mismatched)) :=
  candidate_classification_partition expOk "control" resOk rfl

/-- With unique keys and the control name registered, the loop skips exactly
one entry. -/
theorem candidateEntries_length_nodup (bs : List (String × BehaviorOutcome)) (name : String)
    (hnd : (bs.map Prod.fst).Nodup) (hmem : name ∈ bs.map Prod.fst) :
    (candidateEntries bs name).length = bs.length - 1 := by
  induction bs with
  | nil => simp at hmem
  | cons p rest ih =>
      rw [List.map_cons, List.nodup_cons] at hnd
      rw [List.map_cons, List.mem_cons] at hmem
      by_cases hp : p.1 = name
      · have hrest : candidateEntries rest name = rest := by
          apply List.filter_eq_self.mpr
          intro q hq
          have : ¬ q.1 = name := by
            intro hqe
            apply hnd.1
            rw [hp, ← hqe]
            exact List.mem_map.mpr ⟨q, hq, rfl⟩
          simp [this]
        have hce : candidateEntries (p :: rest) name = candidateEntries rest name := by
          simp [candidateEntries, List.filter_cons, hp]
        rw [hce, hrest]
        simp
      · have hmem2 : name ∈ rest.map Prod.fst := by
          rcases hmem with hmem | hmem
          · exact absurd hmem.symm hp
          · exact hmem
        have hce : candidateEntries (p :: rest) name = p :: candidateEntries rest name := by
          simp [candidateEntries, List.filter_cons, hp]
        have hpos : 0 < rest.length := by
          rcases List.mem_map.mp hmem2 with ⟨q, hq, _⟩
          exact List.length_pos.mpr (List.ne_nil_of_mem hq)
        have := ih hnd.2 hmem2
        rw [hce]
        simp only [List.length_cons]
        omega

/-- Control returns 5; candidates "a" and "b" return 1 and 2; candidate
entries listed in one iteration order of the same behavior map. -/
def expPerm1 : Experiment :=
  { Name := "exp"
    behaviors := [("control", .ret (.int 5) none), ("a", .ret (.int 1) none),
      ("b", .ret (.int 2) none)]
    comparator := cmpEq, ignores := [], cleaner := noopCleaner
    beforeRun := none, publisher := fun _ => none }

/-- The same experiment with the behaviors map iterated in another order. -/
def expPerm2 : Experiment :=
  { expPerm1 with behaviors := [("control", .ret (.int 5) none), ("b", .ret (.int 2) none),
      ("a", .ret (.int 1) none)] }

/-- The sequence of candidate names a run produced. -/
def candidateNamesOf (o : Option Result) : Option (List (Option String)) :=
  o.map (fun r => r.Candidates.map (fun c => c.map (fun ob => ob.Name)))

/-- C4 counterexample: two runs of the same experiment — the same behavior
map (the entry lists are permutations of each other) and identical hooks —
produce different candidate orders, because `Run` iterates a Go map, whose
iteration order is not specified and not stable across runs.  So the
parenthetical "the same experiment always yields the same candidate order
across runs" is false of the code. -/
theorem candidate_order_not_stable :
    expPerm1.behaviors.Perm expPerm2.behaviors ∧
    expPerm1.Name = expPerm2.Name ∧
    expPerm1.comparator = expPerm2.comparator ∧
    expPerm1.ignores = expPerm2.ignores ∧
    expPerm1.cleaner = expPerm2.cleaner ∧
    expPerm1.beforeRun = expPerm2.beforeRun ∧
    expPerm1.publisher = expPerm2.publisher ∧
    candidateNamesOf (Run expPerm1 "control") ≠ candidateNamesOf (Run expPerm2 "control") := by
  refine ⟨List.Perm.cons _ (List.Perm.swap _ _ _), rfl, rfl, rfl, rfl, rfl, rfl, ?_⟩
  decide

/-- C4 amended: within one run, the candidates are observed and appended to
`Candidates` and to `Observations` in the behavior map's iteration order for
that run, with the control always at index 0; that order is whatever order
the map yields and is not guaranteed stable across runs. -/
theorem candidates_follow_iteration_order (e : Experiment) (name : String) (r : Result)
    (hnd : (e.behaviors.map Prod.fst).Nodup)
    (h : Run e name = some r) :
    r.Observations = some r.Control :: r.Candidates ∧
    r.Candidates = (candidateEntries e.behaviors name).map
      (fun p => some (observeEntry e p)) := by
  obtain ⟨hmem, hr⟩ := Run_some_inv e name r h
  subst hr
  have hlen : (candidateEntries e.behaviors name).length = e.behaviors.length - 1 :=
    candidateEntries_length_nodup e.behaviors name hnd hmem
  have hleft : specLeftover e name = 0 := by
    simp [specLeftover, specCands, newCands, hlen]
  simp [mkTrace, specPrePublish, specCands, newCands, hleft]

def resPerm1 : Result := (Run expPerm1 "control").getD rDefault

theorem candidates_follow_iteration_order_witness :
    resPerm1.Observations = some resPerm1.Control :: resPerm1.Candidates ∧
    resPerm1.Candidates = (candidateEntries expPerm1.behaviors "control").map
      (fun p => some (observeEntry expPerm1 p)) :=
  candidates_follow_iteration_order expPerm1 "control" resPerm1 (by decide) rfl

/-- Control returns 5, one candidate returns 5, but the comparator always
fails with an error. -/
def expCmpErr : Experiment :=
  { expOk with comparator := fun _ _ => (true, some { msg := "cmp" }) }

def resCmpErr : Result := (Run expCmpErr "control").getD rDefault

/-- The candidate observation produced by the "new" behavior of `expOk`
and its variants. -/
def candNew5 : Observation := { Name := "new", Value := GoVal.int 5, Err := none }

/-- C5: a comparator error on a candidate forces the mismatched flag — the
candidate ends up in `Mismatched` or in `Ignored`, never unclassified — and
a `compare`-tagged ResultError is recorded on the Result. -/
theorem comparator_error_fail_safe (e : Experiment) (name : String) (r : Result)
    (c : Observation) (err : GoErr)
    (h : Run e name = some r)
    (hc : some c ∈ r.Candidates)
    (herr : (e.comparator r.Control.Value c.Value).2 = some err) :
    (c ∈ r.Mismatched ∨ c ∈ r.Ignored) ∧ e.resultErr "compare" err ∈ r.Errors := by
  obtain ⟨hmem, hr⟩ := Run_some_inv e name r h
  subst hr
  have hctl : (mkTrace e name).result.Control = specControl e name := by
    simp [mkTrace, specPrePublish]
  rw [hctl] at herr
  have hcc : c ∈ specCands e name := by
    simpa [mkTrace, specPrePublish, mem_fill] using hc
  have hm2 : (mismatching e (specControl e name) c).2 = some err := by
    simpa [mismatching] using herr
  constructor
  · rcases classify_of_cmp_err e (specControl e name) c err hm2 with hcl | hcl
    · right
      simp [mkTrace, specPrePublish, List.mem_filter, hcc, hcl]
    · left
      simp [mkTrace, specPrePublish, List.mem_filter, hcc, hcl]
  · have h1 := compare_err_mem_classErrs e (specControl e name) c err hm2
    have h2 := classErrs_mem_prePublish e name c _ hcc h1
    have h3 := errors_sub_final e name _ h2
    simpa [mkTrace] using h3

theorem comparator_error_fail_safe_witness :
    (candNew5 ∈ resCmpErr.Mismatched ∨ candNew5 ∈ resCmpErr.Ignored) ∧
      expCmpErr.resultErr "compare" { msg := "cmp" } ∈ resCmpErr.Errors :=
  comparator_error_fail_safe expCmpErr "control" resCmpErr candNew5 { msg := "cmp" }
    rfl (by decide) rfl

/-- Ignore rules before the first decisive one are skipped without effect. -/
theorem ignoringGo_append_skip (pre rest : List (GoVal → GoVal → Bool × Option GoErr))
    (cv xv : GoVal) (hpre : ∀ f ∈ pre, f cv xv = (false, none)) :
    ignoringGo (pre ++ rest) cv xv = ignoringGo rest cv xv := by
  induction pre with
  | nil => rfl
  | cons f fs ih =>
      have hf : f cv xv = (false, none) := hpre f (List.mem_cons_self f fs)
      rw [List.cons_append]
      simp only [ignoringGo, hf]
      exact ih (fun g hg => hpre g (List.mem_cons_of_mem f hg))

/-- C6: if, for a mismatched candidate, some ignore rule errors while all
earlier rules decided nothing, the candidate is treated as not ignored — it
lands in `Mismatched`, not `Ignored` — and an `ignore`-tagged ResultError is
recorded. -/
theorem ignore_rule_error_fail_safe (e : Experiment) (name : String) (r : Result)
    (c : Observation) (err : GoErr)
    (pre post : List (GoVal → GoVal → Bool × Option GoErr))
    (rule : GoVal → GoVal → Bool × Option GoErr)
    (h : Run e name = some r)
    (hc : some c ∈ r.Candidates)
    (hmis : isMismatched e r.Control c = true)
    (hsplit : e.ignores = pre ++ rule :: post)
    (hpre : ∀ f ∈ pre, f r.Control.Value c.Value = (false, none))
    (hrule : (rule r.Control.Value c.Value).2 = some err) :
    c ∈ r.Mismatched ∧ c ∉ r.Ignored ∧ e.resultErr "ignore" err ∈ r.Errors := by
  obtain ⟨hmem, hr⟩ := Run_some_inv e name r h
  subst hr
  have hctl : (mkTrace e name).result.Control = specControl e name := by
    simp [mkTrace, specPrePublish]
  rw [hctl] at hmis hpre hrule
  have hcc : c ∈ specCands e name := by
    simpa [mkTrace, specPrePublish, mem_fill] using hc
  have hig : ignoring e (specControl e name) c = (false, some err) := by
    unfold ignoring
    rw [hsplit, ignoringGo_append_skip pre _ _ _ hpre]
    rcases hr2 : rule (specControl e name).Value c.Value with ⟨rb, rerr⟩
    have hre : rerr = some err := by
      rw [hr2] at hrule
      exact hrule
    subst hre
    simp only [ignoringGo, hr2]
  have hii : isIgnored e (specControl e name) c = false := by
    simp [isIgnored, hig]
  have hcl : classify e (specControl e name) c = Classification.mismatched := by
    simp [classify, hmis, hii]
  refine ⟨?_, ?_, ?_⟩
  · simp [mkTrace, specPrePublish, List.mem_filter, hcc, hcl]
  · simp [mkTrace, specPrePublish, List.mem_filter, hcl]
  · have h1 : e.resultErr "ignore" err ∈ classErrs e (specControl e name) c := by
      simp [classErrs, hmis, hig]
    have h2 := classErrs_mem_prePublish e name c _ hcc h1
    have h3 := errors_sub_final e name _ h2
    simpa [mkTrace] using h3

/-- Control returns 5, candidate returns 6 (a real mismatch), and the single
ignore rule errors. -/
def expIgnErr : Experiment :=
  { expOk with
    behaviors := [("control", .ret (.int 5) none), ("new", .ret (.int 6) none)]
    ignores := [fun _ _ => (false, some { msg := "ign" })] }

def resIgnErr : Result := (Run expIgnErr "control").getD rDefault

/-- The candidate observation produced by the "new" behavior returning 6. -/
def candNew6 : Observation := { Name := "new", Value := GoVal.int 6, Err := none }

theorem ignore_rule_error_fail_safe_witness :
    candNew6 ∈ resIgnErr.Mismatched ∧ candNew6 ∉ resIgnErr.Ignored ∧
      expIgnErr.resultErr "ignore" { msg := "ign" } ∈ resIgnErr.Errors :=
  ignore_rule_error_fail_safe expIgnErr "control" resIgnErr candNew6 { msg := "ign" }
    [] [] (fun _ _ => (false, some { msg := "ign" }))
    rfl (by decide) (by decide) rfl (by simp) rfl

/-- C9: the ignore rules are consulted in order and the first rule answering
"ignore" with no error short-circuits: whatever the later rules would do,
the mismatched candidate is placed in `Ignored` (and not in `Mismatched`). -/
theorem ignore_rules_short_circuit (e : Experiment) (name : String) (r : Result)
    (c : Observation)
    (pre post : List (GoVal → GoVal → Bool × Option GoErr))
    (rule : GoVal → GoVal → Bool × Option GoErr)
    (h : Run e name = some r)
    (hc : some c ∈ r.Candidates)
    (hmis : isMismatched e r.Control c = true)
    (hsplit : e.ignores = pre ++ rule :: post)
    (hpre : ∀ f ∈ pre, f r.Control.Value c.Value = (false, none))
    (hrule : rule r.Control.Value c.Value = (true, none)) :
    c ∈ r.Ignored ∧ c ∉ r.Mismatched := by
  obtain ⟨hmem, hr⟩ := Run_some_inv e name r h
  subst hr
  have hctl : (mkTrace e name).result.Control = specControl e name := by
    simp [mkTrace, specPrePublish]
  rw [hctl] at hmis hpre hrule
  have hcc : c ∈ specCands e name := by
    simpa [mkTrace, specPrePublish, mem_fill] using hc
  have hig : ignoring e (specControl e name) c = (true, none) := by
    unfold ignoring
    rw [hsplit, ignoringGo_append_skip pre _ _ _ hpre]
    simp only [ignoringGo, hrule]
  have hii : isIgnored e (specControl e name) c = true := by
    simp [isIgnored, hig]
  have hcl : classify e (specControl e name) c = Classification.ignored := by
    simp [classify, hmis, hii]
  constructor
  · simp [mkTrace, specPrePublish, List.mem_filter, hcc, hcl]
  · simp [mkTrace, specPrePublish, List.mem_filter, hcl]

/-- Control returns 5, candidate returns 6; the first ignore rule says
"ignore", a later rule would error. -/
def expIgnore : Experiment :=
  { expOk with
    behaviors := [("control", .ret (.int 5) none), ("new", .ret (.int 6) none)]
    ignores := [fun _ _ => (true, none), fun _ _ => (false, some { msg := "later" })] }

def resIgnore : Result := (Run expIgnore "control").getD rDefault

theorem ignore_rules_short_circuit_witness :
    candNew6 ∈ resIgnore.Ignored ∧ candNew6 ∉ resIgnore.Mismatched :=
  ignore_rules_short_circuit expIgnore "control" resIgnore candNew6
    [] [fun _ _ => (false, some { msg := "later" })] (fun _ _ => (true, none))
    rfl (by decide) (by decide) rfl (by simp) rfl

/-- With unique keys, map lookup finds a member entry's value. -/
theorem lookupB_eq_of_mem (bs : List (String × BehaviorOutcome)) (bname : String)
    (v : BehaviorOutcome) (hnd : (bs.map Prod.fst).Nodup) (hmem : (bname, v) ∈ bs) :
    lookupB bs bname = some v := by
  induction bs with
  | nil => simp at hmem
  | cons p rest ih =>
      rw [List.map_cons, List.nodup_cons] at hnd
      rcases List.mem_cons.mp hmem with hmem | hmem
      · rw [← hmem]
        simp [lookupB]
      · have hne : (p.1 == bname) = false := by
          simp only [beq_eq_false_iff_ne, ne_eq]
          intro heq
          apply hnd.1
          rw [heq]
          exact List.mem_map.mpr ⟨(bname, v), hmem, rfl⟩
        unfold lookupB
        rw [List.find?_cons]
        rw [hne]
        exact ih hnd.2 hmem

/-- C7: a behavior whose invocation panics yields an observation with an
absent value and an error obtained by the conversion policy (string payload
becomes an error with that text, error payload is used directly, any other
payload is formatted generically), and the trial still completes with that
observation in the Result's observation sequence. -/
theorem panic_converted_to_error (e : Experiment) (name bname : String) (payload : GoVal)
    (hnd : (e.behaviors.map Prod.fst).Nodup)
    (hname : name ∈ e.behaviors.map Prod.fst)
    (hb : (bname, BehaviorOutcome.panics payload) ∈ e.behaviors) :
    ∃ r o, Run e name = some r ∧ some o ∈ r.Observations ∧ o.Name = bname ∧
      o.Value = GoVal.nil ∧
      o.Err = some (match payload with
        | .str s => { msg := s }
        | .err er => er
        | t => { msg := formatV t }) := by
  have ho : observe e bname (some (BehaviorOutcome.panics payload))
      = { Name := bname, Value := GoVal.nil,
          Err := some (match payload with
            | .str s => { msg := s }
            | .err er => er
            | t => { msg := formatV t }) } := by
    cases payload <;> rfl
  refine ⟨(mkTrace e name).result, observe e bname (some (BehaviorOutcome.panics payload)),
    ?_, ?_, by rw [ho], by rw [ho], by rw [ho]⟩
  · simp [Run, RunT_run e name hname]
  · by_cases hbn : bname = name
    · subst hbn
      have hlk : lookupB e.behaviors bname = some (BehaviorOutcome.panics payload) :=
        lookupB_eq_of_mem e.behaviors bname _ hnd hb
      have hco : specControl e bname = observe e bname (some (BehaviorOutcome.panics payload)) := by
        rw [specControl, hlk]
      rw [← hco]
      simp [mkTrace, specPrePublish]
    · have hce : (bname, BehaviorOutcome.panics payload) ∈ candidateEntries e.behaviors name := by
        rw [candidateEntries, List.mem_filter]
        exact ⟨hb, by simp [hbn]⟩
      have hcs : observe e bname (some (BehaviorOutcome.panics payload)) ∈ specCands e name :=
        List.mem_map.mpr ⟨(bname, BehaviorOutcome.panics payload), hce, rfl⟩
      simp [mkTrace, specPrePublish, hcs]

/-- Control returns 5; the candidate "boom" panics with a string payload. -/
def expPanic : Experiment :=
  { expOk with
    behaviors := [("control", .ret (.int 5) none), ("boom", .panics (.str "kaboom"))] }

theorem panic_converted_to_error_witness :
    ∃ r o, Run expPanic "control" = some r ∧ some o ∈ r.Observations ∧ o.Name = "boom" ∧
      o.Value = GoVal.nil ∧
      o.Err = some (match GoVal.str "kaboom" with
        | .str s => { msg := s }
        | .err er => er
        | t => { msg := formatV t }) :=
  panic_converted_to_error expPanic "control" "boom" (GoVal.str "kaboom")
    (by decide) (by decide) (by decide)

/-- C8: a candidate on which the comparator answers "matched" with no error
appears neither in `Ignored` nor in `Mismatched`. -/
theorem matching_candidate_unclassified (e : Experiment) (name : String) (r : Result)
    (c : Observation)
    (h : Run e name = some r)
    (hc : some c ∈ r.Candidates)
    (hcomp : e.comparator r.Control.Value c.Value = (true, none)) :
    c ∉ r.Ignored ∧ c ∉ r.Mismatched := by
  obtain ⟨hmem, hr⟩ := Run_some_inv e name r h
  subst hr
  have hctl : (mkTrace e name).result.Control = specControl e name := by
    simp [mkTrace, specPrePublish]
  rw [hctl] at hcomp
  have hmm : mismatching e (specControl e name) c = (false, none) := by
    simp [mismatching, hcomp]
  have hmis : isMismatched e (specControl e name) c = false := by
    simp [isMismatched, hmm]
  have hcl : classify e (specControl e name) c = Classification.matched := by
    simp [classify, hmis]
  constructor
  · simp [mkTrace, specPrePublish, List.mem_filter, hcl]
  · simp [mkTrace, specPrePublish, List.mem_filter, hcl]

theorem matching_candidate_unclassified_witness :
    candNew5 ∉ resOk.Ignored ∧ candNew5 ∉ resOk.Mismatched :=
  matching_candidate_unclassified expOk "control" resOk candNew5 rfl (by decide) rfl

/-- Every per-candidate ResultError is tagged `compare` or `ignore`. -/
theorem classErrs_op (e : Experiment) (control c : Observation) (x : ResultError)
    (hx : x ∈ classErrs e control c) :
    x.Operation = "compare" ∨ x.Operation = "ignore" := by
  unfold classErrs at hx
  rw [List.mem_append] at hx
  rcases hx with hx | hx
  · rcases hm : (mismatching e control c).2 with _ | err
    · rw [hm] at hx
      simp at hx
    · rw [hm] at hx
      simp at hx
      subst hx
      left
      rfl
  · by_cases hmis : isMismatched e control c = true
    · rw [if_pos hmis] at hx
      rcases hg : (ignoring e control c).2 with _ | err
      · rw [hg] at hx
        simp at hx
      · rw [hg] at hx
        simp at hx
        subst hx
        right
        rfl
    · rw [if_neg hmis] at hx
      simp at hx

/-- C10: the publisher is handed the Result carrying every ResultError
collected so far but never one tagged `publish`; a failing publisher adds
its `publish` ResultError only to the returned Result and (with the rest)
to the batch handed to the error reporter. -/
theorem publisher_gets_prepublish_errors (e : Experiment) (name : String) (t : RunTrace)
    (h : RunT e name = some t) :
    (∀ x ∈ t.published.Errors, ¬ x.Operation = "publish") ∧
    (e.publisher t.published = none → t.result.Errors = t.published.Errors) ∧
    (∀ perr, e.publisher t.published = some perr →
      t.result.Errors = t.published.Errors ++ [e.resultErr "publish" perr] ∧
      t.reported = some t.result.Errors) := by
  obtain ⟨hmem, ht⟩ := RunT_some_inv e name t h
  subst ht
  have hpub : (mkTrace e name).published = specPrePublish e name := by
    simp [mkTrace]
  refine ⟨?_, ?_, ?_⟩
  · intro x hx
    rw [hpub] at hx
    simp only [specPrePublish, List.mem_append] at hx
    rcases hx with hx | hx
    · unfold beforeRunErrors at hx
      rcases hbr : e.beforeRun with _ | err
      · rw [hbr] at hx
        simp at hx
      · rw [hbr] at hx
        simp at hx
        rw [hx]
        simp [Experiment.resultErr]
    · rcases List.mem_flatMap.mp hx with ⟨cobs, _, hx2⟩
      rcases classErrs_op e (specControl e name) cobs x hx2 with hop | hop <;>
        simp [hop]
  · intro hnone
    have hnone2 : e.publisher (specPrePublish e name) = none := by
      rw [← hpub]
      exact hnone
    simp [mkTrace, specFinalErrors, publishErrors, hnone2]
  · intro perr hsome
    have hsome2 : e.publisher (specPrePublish e name) = some perr := by
      rw [← hpub]
      exact hsome
    constructor
    · simp [mkTrace, specFinalErrors, publishErrors, hsome2]
    · have hlen : (specFinalErrors e name).length > 0 := by
        simp [specFinalErrors, publishErrors, hsome2]
      simp [mkTrace, hlen]

/-- Control and candidate both return 5; the publisher always fails. -/
def expPub : Experiment :=
  { expOk with publisher := fun _ => some { msg := "pub" } }

/-- A placeholder used only as the default of `Option.getD`. -/
def trDefault : RunTrace :=
  { result := rDefault, published := rDefault, reported := none }

def tracePub : RunTrace := (RunT expPub "control").getD trDefault

theorem publisher_gets_prepublish_errors_witness :
    (∀ x ∈ tracePub.published.Errors, ¬ x.Operation = "publish") ∧
    (expPub.publisher tracePub.published = none →
      tracePub.result.Errors = tracePub.published.Errors) ∧
    (∀ perr, expPub.publisher tracePub.published = some perr →
      tracePub.result.Errors = tracePub.published.Errors ++ [expPub.resultErr "publish" perr] ∧
      tracePub.reported = some tracePub.result.Errors) :=
  publisher_gets_prepublish_errors expPub "control" tracePub rfl

end Scientist
